import Mathlib

/-!
Verification of the RadiantEngine renderer core against its specification.

The C++ sources are embedded shallowly:
* `float` arithmetic is modelled by exact rationals (ℚ);
* GPU/driver handles (`VkPipeline*`, `VkDescriptorSet`, `VkBuffer`, pool
  handles) are modelled by natural-number identities, since the code only
  compares them;
* driver calls whose results the code branches on (descriptor-set
  allocation, fence waits, swapchain acquisition) are parameters of the
  embedded functions, so the embedding captures the code's control flow for
  every possible driver answer.

Sources embedded: `src/vk_engine.h` (DeletionQueue), `src/vk_engine.cpp`
(`is_in_frustum`, `draw`, `draw_geometry`, `update_render_scene`,
`MeshNode::gather_draw_data`), `src/vk_descriptors.cpp`
(`DescriptorAllocatorGrowable`), `src/vk_types.h` (data model, `VK_CHECK`).
-/

namespace Radiant

/-! ## Vectors and matrices (glm, over ℚ) -/

/-- `glm::vec3` with rational components. -/
structure Vec3 where
  x : ℚ
  y : ℚ
  z : ℚ
deriving DecidableEq

/-- `glm::vec4` with rational components. -/
structure Vec4 where
  x : ℚ
  y : ℚ
  z : ℚ
  w : ℚ
deriving DecidableEq

/-- Column-major `glm::mat4`: `c0` is `m[0]`, the first column. -/
structure Mat4 where
  c0 : Vec4
  c1 : Vec4
  c2 : Vec4
  c3 : Vec4
deriving DecidableEq

instance : Inhabited Vec3 := ⟨⟨0, 0, 0⟩⟩
instance : Inhabited Vec4 := ⟨⟨0, 0, 0, 0⟩⟩
instance : Inhabited Mat4 := ⟨⟨default, default, default, default⟩⟩

/-- `glm::vec3(v)` on a `vec4`: drop the `w` component. -/
def Vec4.xyz (v : Vec4) : Vec3 := ⟨v.x, v.y, v.z⟩

/-- Matrix-vector product `m * v` (columns weighted by the components of `v`). -/
def Mat4.mulVec (m : Mat4) (v : Vec4) : Vec4 :=
  ⟨m.c0.x * v.x + m.c1.x * v.y + m.c2.x * v.z + m.c3.x * v.w,
   m.c0.y * v.x + m.c1.y * v.y + m.c2.y * v.z + m.c3.y * v.w,
   m.c0.z * v.x + m.c1.z * v.y + m.c2.z * v.z + m.c3.z * v.w,
   m.c0.w * v.x + m.c1.w * v.y + m.c2.w * v.z + m.c3.w * v.w⟩

/-- Matrix product `a * b`: each column of `b` is mapped through `a`. -/
def Mat4.mul (a b : Mat4) : Mat4 :=
  ⟨a.mulVec b.c0, a.mulVec b.c1, a.mulVec b.c2, a.mulVec b.c3⟩

/-- The identity matrix `glm::mat4(1)`. -/
def idMat : Mat4 :=
  ⟨⟨1, 0, 0, 0⟩, ⟨0, 1, 0, 0⟩, ⟨0, 0, 1, 0⟩, ⟨0, 0, 0, 1⟩⟩

/-- `glm::dot` on `vec3`. -/
def dot3 (a b : Vec3) : ℚ := a.x * b.x + a.y * b.y + a.z * b.z

/-! ## Data model (vk_types.h) -/

/-- `AlphaMode` (vk_types.h:100). -/
inductive AlphaMode where
  | Opaque
  | Masked
  | Transparent
  | Other
deriving DecidableEq

/-- `MaterialInstance` (vk_types.h:112). The `MaterialPipeline*` pointer and
the `VkDescriptorSet` handle are identities; the code only ever compares
them, so they are modelled as naturals. -/
structure MaterialInstance where
  pipeline : Nat
  descriptorSet : Nat
  alphaMode : AlphaMode
deriving DecidableEq

/-- `Bounds` (vk_types.h:118): object-space box center and half-extents. -/
structure Bounds where
  origin : Vec3
  extents : Vec3
  sphereRadius : ℚ
deriving DecidableEq

/-- `RenderObject` (vk_types.h:124). Buffer handles and addresses are
identities. -/
structure RenderObject where
  indexCount : Nat
  firstIndex : Nat
  indexBuffer : Nat
  material : MaterialInstance
  bounds : Bounds
  transform : Mat4
  vertexBufferAddress : Nat
deriving DecidableEq

instance : Inhabited MaterialInstance := ⟨⟨0, 0, .Opaque⟩⟩
instance : Inhabited RenderObject :=
  ⟨⟨0, 0, 0, default, ⟨default, default, 0⟩, default, 0⟩⟩

/-- `FrustumPlane` (camera.h:6): view-space plane, unit normal plus offset. -/
structure FrustumPlane where
  normal : Vec3
  d : ℚ
deriving DecidableEq

/-! ## Frustum culling (vk_engine.cpp:36, `is_in_frustum`) -/

/-- View-space box center: `objectToView * vec4(obj.bounds.origin, 1)`
(vk_engine.cpp:38). -/
def viewCenter (obj : RenderObject) (view : Mat4) : Vec3 :=
  ((view.mul obj.transform).mulVec
    ⟨obj.bounds.origin.x, obj.bounds.origin.y, obj.bounds.origin.z, 1⟩).xyz

/-- Conservative view-space half-extents: the component-wise absolute value of
the upper-left 3×3 of `objectToView` applied to the object-space extents
(vk_engine.cpp:39-44). -/
def viewExtents (obj : RenderObject) (view : Mat4) : Vec3 :=
  let m := view.mul obj.transform
  let e := obj.bounds.extents
  ⟨|m.c0.x| * e.x + |m.c1.x| * e.y + |m.c2.x| * e.z,
   |m.c0.y| * e.x + |m.c1.y| * e.y + |m.c2.y| * e.z,
   |m.c0.z| * e.x + |m.c1.z| * e.y + |m.c2.z| * e.z⟩

/-- Projected box radius onto the plane normal:
`r = ext.x*|n.x| + ext.y*|n.y| + ext.z*|n.z|` (vk_engine.cpp:46-48). -/
def projRadius (p : FrustumPlane) (ext : Vec3) : ℚ :=
  ext.x * |p.normal.x| + ext.y * |p.normal.y| + ext.z * |p.normal.z|

/-- Signed plane distance of a point: `dot(plane.normal, c) + plane.d`
(vk_engine.cpp:49). -/
def planeDist (p : FrustumPlane) (c : Vec3) : ℚ := dot3 p.normal c + p.d

/-- One iteration of the plane loop: the object survives the plane unless
`d + r < 0` (vk_engine.cpp:50). -/
def planeKeeps (p : FrustumPlane) (c ext : Vec3) : Bool :=
  !(decide (planeDist p c + projRadius p ext < 0))

/-- `is_in_frustum` (vk_engine.cpp:36-55): the object is kept iff it survives
all six planes. -/
def is_in_frustum (obj : RenderObject) (planes : Fin 6 → FrustumPlane)
    (view : Mat4) : Bool :=
  (List.finRange 6).all fun i =>
    planeKeeps (planes i) (viewCenter obj view) (viewExtents obj view)

/-! Box semantics used to state the culling claim: the box with center `c`
and half-extents `ext`, and what it means for it to lie fully outside or
fully inside a plane's half-spaces. -/

/-- Membership in the axis-aligned box with center `c`, half-extents `ext`. -/
def inBox (c ext q : Vec3) : Prop :=
  |q.x - c.x| ≤ ext.x ∧ |q.y - c.y| ≤ ext.y ∧ |q.z - c.z| ≤ ext.z

/-- The box lies entirely on the negative side of the plane. -/
def fullyOutsidePlane (p : FrustumPlane) (c ext : Vec3) : Prop :=
  ∀ q, inBox c ext q → planeDist p q < 0

/-- The box lies entirely on the non-negative side of the plane. -/
def fullyInsidePlane (p : FrustumPlane) (c ext : Vec3) : Prop :=
  ∀ q, inBox c ext q → 0 ≤ planeDist p q

/-- Component-wise non-negativity, the well-formedness of half-extents. -/
def nonnegVec (v : Vec3) : Prop := 0 ≤ v.x ∧ 0 ≤ v.y ∧ 0 ≤ v.z

/-- Select the box corner coordinate extremizing `n * ·`. -/
def cornerSel (n e : ℚ) : ℚ := if 0 ≤ n then e else -e

lemma abs_cornerSel (n e : ℚ) (he : 0 ≤ e) : |cornerSel n e| = e := by
  unfold cornerSel
  split
  · exact abs_of_nonneg he
  · rw [abs_neg]; exact abs_of_nonneg he

lemma mul_cornerSel (n e : ℚ) : n * cornerSel n e = |n| * e := by
  unfold cornerSel
  split
  · rw [abs_of_nonneg (by assumption)]
  · rw [abs_of_neg (lt_of_not_le (by assumption))]; ring

/-- The corner of the box maximizing the plane distance. -/
def maxCorner (p : FrustumPlane) (c ext : Vec3) : Vec3 :=
  ⟨c.x + cornerSel p.normal.x ext.x,
   c.y + cornerSel p.normal.y ext.y,
   c.z + cornerSel p.normal.z ext.z⟩

/-- The corner of the box minimizing the plane distance. -/
def minCorner (p : FrustumPlane) (c ext : Vec3) : Vec3 :=
  ⟨c.x - cornerSel p.normal.x ext.x,
   c.y - cornerSel p.normal.y ext.y,
   c.z - cornerSel p.normal.z ext.z⟩

lemma maxCorner_mem (p : FrustumPlane) (c ext : Vec3) (he : nonnegVec ext) :
    inBox c ext (maxCorner p c ext) := by
  obtain ⟨h1, h2, h3⟩ := he
  refine ⟨?_, ?_, ?_⟩ <;>
    simp [maxCorner, abs_cornerSel, h1, h2, h3, le_refl]

lemma minCorner_mem (p : FrustumPlane) (c ext : Vec3) (he : nonnegVec ext) :
    inBox c ext (minCorner p c ext) := by
  obtain ⟨h1, h2, h3⟩ := he
  refine ⟨?_, ?_, ?_⟩ <;>
    simp [minCorner, abs_neg, abs_cornerSel, h1, h2, h3, le_refl]

lemma planeDist_maxCorner (p : FrustumPlane) (c ext : Vec3) :
    planeDist p (maxCorner p c ext) = planeDist p c + projRadius p ext := by
  have hx := mul_cornerSel p.normal.x ext.x
  have hy := mul_cornerSel p.normal.y ext.y
  have hz := mul_cornerSel p.normal.z ext.z
  simp only [planeDist, maxCorner, dot3, projRadius]
  nlinarith [hx, hy, hz]

lemma planeDist_minCorner (p : FrustumPlane) (c ext : Vec3) :
    planeDist p (minCorner p c ext) = planeDist p c - projRadius p ext := by
  have hx := mul_cornerSel p.normal.x ext.x
  have hy := mul_cornerSel p.normal.y ext.y
  have hz := mul_cornerSel p.normal.z ext.z
  simp only [planeDist, minCorner, dot3, projRadius]
  nlinarith [hx, hy, hz]

lemma projRadius_nonneg (p : FrustumPlane) (ext : Vec3) (he : nonnegVec ext) :
    0 ≤ projRadius p ext := by
  obtain ⟨h1, h2, h3⟩ := he
  have := abs_nonneg p.normal.x
  have := abs_nonneg p.normal.y
  have := abs_nonneg p.normal.z
  unfold projRadius
  positivity

lemma viewExtents_nonneg (obj : RenderObject) (view : Mat4)
    (he : nonnegVec obj.bounds.extents) : nonnegVec (viewExtents obj view) := by
  obtain ⟨h1, h2, h3⟩ := he
  refine ⟨?_, ?_, ?_⟩ <;>
  · simp only [viewExtents]
    have := abs_nonneg (view.mul obj.transform).c0.x
    positivity

lemma is_in_frustum_iff (obj : RenderObject) (planes : Fin 6 → FrustumPlane)
    (view : Mat4) :
    is_in_frustum obj planes view = true ↔
      ∀ i : Fin 6,
        ¬ (planeDist (planes i) (viewCenter obj view) +
            projRadius (planes i) (viewExtents obj view) < 0) := by
  simp [is_in_frustum, planeKeeps, List.all_eq_true, List.mem_finRange]

/-! ### C1: frustum culling -/

/-- C1 (amended): for well-formed half-extents, (a) an object whose
view-space box is fully outside some frustum plane is excluded; (b) an
object whose box is fully inside all six planes is included; (c) an object
that is tangent to the frustum from outside — for every plane the signed
center distance plus the projected radius is non-negative, so in particular
when it is exactly zero for some plane — is included, not excluded: the
rejection test `d + r < 0` is strict. -/
theorem c1_frustum_cull (obj : RenderObject) (planes : Fin 6 → FrustumPlane)
    (view : Mat4) (hext : nonnegVec obj.bounds.extents) :
    ((∃ i : Fin 6, fullyOutsidePlane (planes i) (viewCenter obj view)
        (viewExtents obj view)) → is_in_frustum obj planes view = false) ∧
    ((∀ i : Fin 6, fullyInsidePlane (planes i) (viewCenter obj view)
        (viewExtents obj view)) → is_in_frustum obj planes view = true) ∧
    ((∀ i : Fin 6, 0 ≤ planeDist (planes i) (viewCenter obj view) +
        projRadius (planes i) (viewExtents obj view)) →
      is_in_frustum obj planes view = true) := by
  have hve := viewExtents_nonneg obj view hext
  refine ⟨?_, ?_, ?_⟩
  · rintro ⟨i, hout⟩
    have hcorner := hout _ (maxCorner_mem (planes i) _ _ hve)
    rw [planeDist_maxCorner] at hcorner
    rcases h : is_in_frustum obj planes view with _ | _
    · rfl
    · exact absurd ((is_in_frustum_iff obj planes view).1 h i) (by simpa using hcorner)
  · intro hin
    rw [is_in_frustum_iff]
    intro i
    have hcorner := hin i _ (minCorner_mem (planes i) _ _ hve)
    rw [planeDist_minCorner] at hcorner
    have hr := projRadius_nonneg (planes i) _ hve
    linarith
  · intro hge
    rw [is_in_frustum_iff]
    intro i
    exact not_lt.2 (hge i)

/-- An object exactly tangent to plane 0 of `cPlanes` from the negative side:
unit cube at the origin with identity transforms. -/
def cObj : RenderObject :=
  { indexCount := 3, firstIndex := 0, indexBuffer := 0,
    material := ⟨0, 0, .Opaque⟩,
    bounds := ⟨⟨0, 0, 0⟩, ⟨1, 1, 1⟩, 2⟩,
    transform := idMat, vertexBufferAddress := 0 }

/-- Six planes; plane 0 has `planeDist + projRadius = 0` at `cObj`, planes
1-5 keep it comfortably. -/
def cPlanes : Fin 6 → FrustumPlane := fun i =>
  if i.val = 0 then ⟨⟨0, 0, 1⟩, -1⟩ else ⟨⟨0, 0, 1⟩, 10⟩

/-- C1 counterexample: for this object, the signed plane distance of the box
center plus the projected radius is exactly zero on plane 0, yet
`is_in_frustum` keeps the object — the claim's boundary case ("excluded") is
false; the code's `<` makes tangency inclusive. -/
theorem c1_counterexample :
    planeDist (cPlanes 0) (viewCenter cObj idMat) +
        projRadius (cPlanes 0) (viewExtents cObj idMat) = 0 ∧
      is_in_frustum cObj cPlanes idMat = true := by
  constructor
  · norm_num [planeDist, projRadius, viewCenter, viewExtents, dot3, cPlanes,
      cObj, idMat, Mat4.mul, Mat4.mulVec, Vec4.xyz]
  · rw [is_in_frustum_iff]
    intro i
    fin_cases i <;>
      norm_num [planeDist, projRadius, viewCenter, viewExtents, dot3, cPlanes,
        cObj, idMat, Mat4.mul, Mat4.mulVec, Vec4.xyz]

/-- Witness for `c1_frustum_cull`: at the concrete tangent configuration the
hypotheses hold and clause (c) concludes that the object is kept. -/
theorem c1_frustum_cull_witness :
    nonnegVec cObj.bounds.extents ∧ is_in_frustum cObj cPlanes idMat = true :=
  ⟨by norm_num [nonnegVec, cObj],
    (c1_frustum_cull cObj cPlanes idMat (by norm_num [nonnegVec, cObj])).2.2
      (by
        intro i
        fin_cases i <;>
          norm_num [planeDist, projRadius, viewCenter, viewExtents, dot3,
            cPlanes, cObj, idMat, Mat4.mul, Mat4.mulVec, Vec4.xyz])⟩

/-! ## Sorting of culled draw lists (vk_engine.cpp:595-634) -/

/-- Indices of the draw data surviving frustum culling, in input order
(vk_engine.cpp:596-602 and 620-627). -/
def survivingIndices (data : List RenderObject) (planes : Fin 6 → FrustumPlane)
    (view : Mat4) : List Nat :=
  (List.range data.length).filter fun i =>
    is_in_frustum (data.getD i default) planes view

/-- The comparator of the opaque sort (vk_engine.cpp:604-618): material
pipeline pointer first, then material descriptor set, then mesh index
buffer. -/
def opaqueLess (A B : RenderObject) : Bool :=
  if A.material.pipeline ≠ B.material.pipeline then
    decide (A.material.pipeline < B.material.pipeline)
  else if A.material.descriptorSet ≠ B.material.descriptorSet then
    decide (A.material.descriptorSet < B.material.descriptorSet)
  else decide (A.indexBuffer < B.indexBuffer)

/-- The opaque comparator lifted to indices into the draw data, as the code
sorts index vectors. -/
def opaqueIdxLess (data : List RenderObject) (iA iB : Nat) : Bool :=
  opaqueLess (data.getD iA default) (data.getD iB default)

/-- Squared distance from the object's world translation (`transform[3]`) to
the camera position. The code compares `glm::length` values; two Euclidean
lengths compare exactly as their squares do, which keeps the model in ℚ. -/
def distSqToCam (camPos : Vec3) (A : RenderObject) : ℚ :=
  (A.transform.c3.x - camPos.x) ^ 2 + (A.transform.c3.y - camPos.y) ^ 2 +
    (A.transform.c3.z - camPos.z) ^ 2

/-- The comparator of the transparent sort (vk_engine.cpp:629-634):
`length(vec3(A.transform[3]) - camera) > length(vec3(B.transform[3]) - camera)`. -/
def transparentLess (camPos : Vec3) (A B : RenderObject) : Bool :=
  decide (distSqToCam camPos B < distSqToCam camPos A)

/-- The transparent comparator lifted to indices into the draw data. -/
def transparentIdxLess (data : List RenderObject) (camPos : Vec3)
    (iA iB : Nat) : Bool :=
  transparentLess camPos (data.getD iA default) (data.getD iB default)

/-- Postcondition of `std::sort` with comparator `cmp`: the output is a
permutation of the input in which no element compares `cmp`-before an
element to its left. `std::sort` promises nothing more; in particular it is
not stable, so any list satisfying this relation is a possible result. -/
def sortSpec {α : Type} (cmp : α → α → Bool) (input output : List α) : Prop :=
  input.Perm output ∧ output.Pairwise fun a b => cmp b a = false

/-- Composite sort key of an opaque draw. -/
def opaqueKey (A : RenderObject) : Nat × Nat × Nat :=
  (A.material.pipeline, A.material.descriptorSet, A.indexBuffer)

/-- Non-strict lexicographic order on the composite opaque keys of two
render objects. -/
def keyLE (A B : RenderObject) : Prop :=
  A.material.pipeline < B.material.pipeline ∨
    (A.material.pipeline = B.material.pipeline ∧
      (A.material.descriptorSet < B.material.descriptorSet ∨
        (A.material.descriptorSet = B.material.descriptorSet ∧
          A.indexBuffer ≤ B.indexBuffer)))

lemma opaqueLess_false (A B : RenderObject) (h : opaqueLess B A = false) :
    keyLE A B := by
  unfold opaqueLess at h
  unfold keyLE
  split_ifs at h with h1 h2 <;>
    simp only [decide_eq_false_iff_not, not_lt] at h <;> omega

/-! ### C2: opaque sort -/

/-- C2 (amended): any output the opaque sort may produce is a permutation of
the surviving indices that is non-decreasing in the composite key
(pipeline identity, then descriptor-set identity, then index-buffer
identity); the relative order of draws with identical keys is NOT pinned to
the input order, because the code uses `std::sort`, which is not stable. -/
theorem c2_opaque_sort (data : List RenderObject) (input output : List Nat)
    (h : sortSpec (opaqueIdxLess data) input output) :
    output.Perm input ∧
      output.Pairwise fun i j =>
        keyLE (data.getD i default) (data.getD j default) := by
  refine ⟨h.1.symm, h.2.imp ?_⟩
  intro i j hij
  exact opaqueLess_false _ _ hij

/-- Two render objects with identical composite keys but different
`firstIndex`, in a two-element draw list. -/
def cA : RenderObject :=
  { indexCount := 3, firstIndex := 0, indexBuffer := 7,
    material := ⟨1, 2, .Opaque⟩,
    bounds := ⟨⟨0, 0, 0⟩, ⟨1, 1, 1⟩, 2⟩,
    transform := idMat, vertexBufferAddress := 0 }

/-- Same key as `cA`, different draw parameters. -/
def cB : RenderObject := { cA with firstIndex := 3 }

/-- A two-element opaque draw list whose entries share one composite key. -/
def cDataEq : List RenderObject := [cA, cB]

/-- C2 counterexample: for the input order `[0, 1]` of two draws with
identical composite keys, the reversed output `[1, 0]` also satisfies the
`std::sort` postcondition, so the sort is not required to keep the input
order of equal-key draws — the stability claim is false. -/
theorem c2_counterexample :
    sortSpec (opaqueIdxLess cDataEq) [0, 1] [1, 0] ∧
      opaqueKey cA = opaqueKey cB ∧
      cA.firstIndex ≠ cB.firstIndex ∧
      ([1, 0] : List Nat) ≠ [0, 1] := by
  exact ⟨⟨List.Perm.swap 1 0 [], List.pairwise_pair.2 (by decide)⟩,
    by decide, by decide, by decide⟩

/-- Witness for `c2_opaque_sort` at the concrete equal-key draw list. -/
theorem c2_opaque_sort_witness :
    ([1, 0] : List Nat).Perm [0, 1] ∧
      ([1, 0] : List Nat).Pairwise fun i j =>
        keyLE (cDataEq.getD i default) (cDataEq.getD j default) :=
  c2_opaque_sort cDataEq [0, 1] [1, 0]
    ⟨List.Perm.swap 1 0 [], List.pairwise_pair.2 (by decide)⟩

/-! ### C3: transparent sort -/

/-- C3 (amended): any output the transparent sort may produce is a
permutation of the surviving indices in non-increasing camera distance
(back-to-front); objects at exactly equal distance may appear in either
order, because the code uses `std::sort`, which is not stable, so the output
is not uniquely determined by the input. -/
theorem c3_transparent_sort (data : List RenderObject) (camPos : Vec3)
    (input output : List Nat)
    (h : sortSpec (transparentIdxLess data camPos) input output) :
    output.Perm input ∧
      output.Pairwise fun i j =>
        distSqToCam camPos (data.getD j default) ≤
          distSqToCam camPos (data.getD i default) := by
  refine ⟨h.1.symm, h.2.imp ?_⟩
  intro i j hij
  exact not_lt.1 (by simpa [transparentIdxLess, transparentLess] using hij)

/-- Camera position used in the transparent-sort counterexample. -/
def cCam : Vec3 := ⟨0, 0, 5⟩

lemma transparent_tie :
    transparentIdxLess cDataEq cCam 0 1 = false ∧
      transparentIdxLess cDataEq cCam 1 0 = false := by
  constructor <;>
  · simp only [transparentIdxLess, transparentLess, distSqToCam, cDataEq, cA,
      cB, cCam, idMat, List.getD, decide_eq_false_iff_not, not_lt]
    norm_num

/-- C3 counterexample: both draws of `cDataEq` sit at equal camera distance,
and the reversed output `[1, 0]` also satisfies the `std::sort`
postcondition for the transparent comparator — equal-distance objects are
not required to keep their input order. -/
theorem c3_counterexample :
    sortSpec (transparentIdxLess cDataEq cCam) [0, 1] [1, 0] ∧
      distSqToCam cCam cA = distSqToCam cCam cB ∧
      ([1, 0] : List Nat) ≠ [0, 1] := by
  refine ⟨⟨List.Perm.swap 1 0 [], List.pairwise_pair.2 transparent_tie.1⟩,
    ?_, by decide⟩
  simp only [distSqToCam, cA, cB, cCam, idMat]

/-- Witness for `c3_transparent_sort` at the concrete equal-distance list. -/
theorem c3_transparent_sort_witness :
    ([1, 0] : List Nat).Perm [0, 1] ∧
      ([1, 0] : List Nat).Pairwise fun i j =>
        distSqToCam cCam (cDataEq.getD j default) ≤
          distSqToCam cCam (cDataEq.getD i default) :=
  c3_transparent_sort cDataEq cCam [0, 1] [1, 0]
    ⟨List.Perm.swap 1 0 [], List.pairwise_pair.2 transparent_tie.1⟩

/-! ## DeletionQueue (vk_engine.h:17-32) -/

/-- `DeletionQueue`: a deque of zero-argument cleanup actions. The actions
are modelled as abstract labels of type `α`; executing an action is
observed by emitting its label. -/
structure DeletionQueue (α : Type) where
  deletors : List α
deriving DecidableEq

namespace DeletionQueue

/-- `push_function` (vk_engine.h:21): append at the back of the deque. -/
def push_function {α} (q : DeletionQueue α) (f : α) : DeletionQueue α :=
  ⟨q.deletors ++ [f]⟩

/-- `flush` (vk_engine.h:25-31): execute all pending actions back to front
(reverse iteration), then clear the deque. Returns the executed actions in
execution order, paired with the queue afterwards. -/
def flush {α} (q : DeletionQueue α) : List α × DeletionQueue α :=
  (q.deletors.reverse, ⟨[]⟩)

/-- A default-constructed queue. -/
def emptyQ {α} : DeletionQueue α := ⟨[]⟩

/-- Push a whole list of actions in order. -/
def pushAll {α} (q : DeletionQueue α) (fs : List α) : DeletionQueue α :=
  fs.foldl push_function q

lemma pushAll_deletors {α} (q : DeletionQueue α) (fs : List α) :
    (q.pushAll fs).deletors = q.deletors ++ fs := by
  induction fs generalizing q with
  | nil => simp [pushAll]
  | cons f fs ih =>
    simp [pushAll, push_function] at ih ⊢
    simp [List.foldl_cons, ih ⟨q.deletors ++ [f]⟩]

end DeletionQueue

/-! ### C4: deletion queue flush order -/

/-- C4: after pushing any sequence of actions onto an empty queue, `flush`
executes them in exactly reverse push order, leaves the queue empty, and an
immediately following second `flush` executes nothing and leaves the queue
empty. -/
theorem c4_deletion_queue {α : Type} (fs : List α) :
    ((DeletionQueue.emptyQ.pushAll fs).flush).1 = fs.reverse ∧
      ((DeletionQueue.emptyQ.pushAll fs).flush).2.deletors = [] ∧
      ((DeletionQueue.emptyQ.pushAll fs).flush).2.flush =
        ([], DeletionQueue.emptyQ) := by
  refine ⟨?_, rfl, rfl⟩
  simp [DeletionQueue.flush, DeletionQueue.pushAll_deletors, DeletionQueue.emptyQ]

/-- Witness for `c4_deletion_queue` on a concrete three-action queue. -/
theorem c4_deletion_queue_witness :
    ((DeletionQueue.emptyQ.pushAll [10, 20, 30]).flush).1 = [30, 20, 10] := by
  have h := c4_deletion_queue (α := Nat) [10, 20, 30]
  simpa using h.1

/-! ## Growable descriptor allocator (vk_descriptors.cpp:81-190) -/

/-- VkResult codes the embedding needs (vulkan_core.h values). -/
def VK_ERROR_FRAGMENTED_POOL : Int := -12

/-- `VK_ERROR_OUT_OF_POOL_MEMORY` (vulkan_core.h). -/
def VK_ERROR_OUT_OF_POOL_MEMORY : Int := -1000069000

/-- A descriptor pool: the `VkDescriptorPool` handle (`id`) together with
the driver-side state that handle refers to — `capacity` is the `maxSets`
the pool was created with, `used` the number of sets currently allocated
from it (`vkResetDescriptorPool` returns it to 0). -/
structure DPool where
  id : Nat
  capacity : Nat
  used : Nat
deriving DecidableEq

/-- `PoolSizeRatio` (vk_descriptors.h:32): descriptor type plus
per-set ratio. Only carried, never branched on, by the embedded code. -/
structure PoolSizeRatio where
  type : Nat
  ratio : ℚ
deriving DecidableEq

/-- `DescriptorAllocatorGrowable` (vk_descriptors.h:30-57). `nextPoolId`
supplies fresh pool handles and `createdCaps` is ghost bookkeeping that
records the `maxSets` of every pool ever created, in creation order. -/
structure DescriptorAllocatorGrowable where
  ratios : List PoolSizeRatio
  fullPools : List DPool
  readyPools : List DPool
  setsPerPool : Nat
  nextPoolId : Nat
  createdCaps : List Nat
deriving DecidableEq

namespace DescriptorAllocatorGrowable

/-- Truncating multiplication by 1.5: `setsPerPool` is a `uint32`, so
`setsPerPool * 1.5` computes in `double` (exactly, for values in range) and
truncates back to `⌊3n/2⌋` on assignment. -/
def growTrunc (n : Nat) : Nat := 3 * n / 2

/-- The growth ceiling hard-coded in `get_pool` (vk_descriptors.cpp:161). -/
def poolCeiling : Nat := 4092

/-- `create_pool` (vk_descriptors.cpp:169-190): creates a pool with
`maxSets = setCount` (the per-type descriptor counts scale with the fixed
ratios and are not modelled further). -/
def create_pool (st : DescriptorAllocatorGrowable) (setCount : Nat) :
    DPool × DescriptorAllocatorGrowable :=
  (⟨st.nextPoolId, setCount, 0⟩,
   { st with
      nextPoolId := st.nextPoolId + 1,
      createdCaps := st.createdCaps ++ [setCount] })

/-- `init` (vk_descriptors.cpp:81-92) on a default-constructed allocator:
store the ratios, create one pool for `initialSets` sets, set the growth
counter to `initialSets * 1.5` (truncated, NOT clamped to the ceiling), and
put the pool in the ready list. -/
def init (initialSets : Nat) (poolRatios : List PoolSizeRatio) :
    DescriptorAllocatorGrowable :=
  let st0 : DescriptorAllocatorGrowable :=
    { ratios := poolRatios, fullPools := [], readyPools := [],
      setsPerPool := 0, nextPoolId := 0, createdCaps := [] }
  let p := st0.create_pool initialSets
  { p.2 with
      setsPerPool := growTrunc initialSets,
      readyPools := p.2.readyPools ++ [p.1] }

/-- `get_pool` (vk_descriptors.cpp:149-167): pop the back of the ready
list; if none is ready, create a pool sized by the growth counter, then
grow the counter by 1.5× and clamp it to the ceiling. -/
def get_pool (st : DescriptorAllocatorGrowable) :
    DPool × DescriptorAllocatorGrowable :=
  match st.readyPools.getLast? with
  | some p => (p, { st with readyPools := st.readyPools.dropLast })
  | none =>
    let q := st.create_pool st.setsPerPool
    let grown := growTrunc st.setsPerPool
    (q.1, { q.2 with
      setsPerPool := if grown > poolCeiling then poolCeiling else grown })

/-- `vkResetDescriptorPool`: all sets allocated from the pool are returned. -/
def clearPool (p : DPool) : DPool := { p with used := 0 }

/-- `reset_pools` (vk_descriptors.cpp:94-104): reset every ready pool in
place, then reset each full pool and append it to the ready list, then
clear the full list. -/
def reset_pools (st : DescriptorAllocatorGrowable) :
    DescriptorAllocatorGrowable :=
  { st with
      readyPools := st.readyPools.map clearPool ++ st.fullPools.map clearPool,
      fullPools := [] }

end DescriptorAllocatorGrowable

/-- Result of one `vkAllocateDescriptorSets` call on a given pool, supplied
by the driver: on success the driver's updated pool state plus the written
set handle; the two retryable error codes; or any other result code
together with whatever value the call left in the output variable (`none` =
left untouched). -/
inductive AllocReply where
  | ok (pool : DPool) (set : Nat)
  | errFragmentedPool
  | errOutOfPoolMemory
  | errOther (code : Int) (written : Option Nat)
deriving DecidableEq

/-- The VkResult code of a reply. -/
def AllocReply.code : AllocReply → Int
  | .ok _ _ => 0
  | .errFragmentedPool => VK_ERROR_FRAGMENTED_POOL
  | .errOutOfPoolMemory => VK_ERROR_OUT_OF_POOL_MEMORY
  | .errOther c _ => c

/-- What `DescriptorAllocatorGrowable::allocate` does, as observed by its
caller. `okUnchecked` is the fall-through on a first-attempt result that is
neither success nor one of the two retryable codes: the function returns
the (possibly garbage) output variable without any check. `fatal` is the
`VK_CHECK` abort on a failing second attempt. -/
inductive AllocOutcome where
  | ok (set : Nat)
  | okUnchecked (code : Int) (set : Option Nat)
  | fatal (code : Int)
deriving DecidableEq

/-- `AllocOutcome.ok`? -/
def AllocOutcome.succeeded : AllocOutcome → Bool
  | .ok _ => true
  | _ => false

/-- `AllocOutcome.fatal`? -/
def AllocOutcome.isFatal : AllocOutcome → Bool
  | .fatal _ => true
  | _ => false

/-- The full observable result of one `allocate` call: the state left
behind, the outcome, and the pools on which `vkAllocateDescriptorSets` was
attempted, in order. -/
structure AllocTrace where
  state : DescriptorAllocatorGrowable
  outcome : AllocOutcome
  attempts : List DPool
deriving DecidableEq

/-- The pool on which the first allocation attempt is made:
`poolToUse = get_pool()` (vk_descriptors.cpp:121). -/
def firstPool (st : DescriptorAllocatorGrowable) : DPool := st.get_pool.1

/-- The allocator state right after the first `get_pool`. -/
def afterFirst (st : DescriptorAllocatorGrowable) : DescriptorAllocatorGrowable :=
  st.get_pool.2

/-- The state after the exhausted first pool has been pushed onto the full
list (vk_descriptors.cpp:136). -/
def retryState (st : DescriptorAllocatorGrowable) : DescriptorAllocatorGrowable :=
  { afterFirst st with fullPools := (afterFirst st).fullPools ++ [firstPool st] }

/-- The pool on which the retry attempt is made (vk_descriptors.cpp:138). -/
def secondPool (st : DescriptorAllocatorGrowable) : DPool :=
  (DescriptorAllocatorGrowable.get_pool (retryState st)).1

/-- The allocator state right after the second `get_pool`. -/
def afterSecond (st : DescriptorAllocatorGrowable) : DescriptorAllocatorGrowable :=
  (DescriptorAllocatorGrowable.get_pool (retryState st)).2

namespace DescriptorAllocatorGrowable

/-- `allocate` (vk_descriptors.cpp:118-147), parameterized by the driver's
reply `tryAlloc` for each pool: get a pool; attempt; if the result is
`VK_ERROR_FRAGMENTED_POOL` or `VK_ERROR_OUT_OF_POOL_MEMORY`, push that pool
onto the full list, get another pool and retry once, `VK_CHECK`-aborting if
the retry does not succeed; finally push the pool used onto the ready list
and return the set. -/
def allocate (tryAlloc : DPool → AllocReply) (st : DescriptorAllocatorGrowable) :
    AllocTrace :=
  match tryAlloc (firstPool st) with
  | .ok p' s =>
    ⟨{ afterFirst st with readyPools := (afterFirst st).readyPools ++ [p'] },
      .ok s, [firstPool st]⟩
  | .errOther c w =>
    ⟨{ afterFirst st with
        readyPools := (afterFirst st).readyPools ++ [firstPool st] },
      .okUnchecked c w, [firstPool st]⟩
  | _ =>
    match tryAlloc (secondPool st) with
    | .ok p' s =>
      ⟨{ afterSecond st with
          readyPools := (afterSecond st).readyPools ++ [p'] },
        .ok s, [firstPool st, secondPool st]⟩
    | r2 => ⟨afterSecond st, .fatal r2.code, [firstPool st, secondPool st]⟩

end DescriptorAllocatorGrowable

namespace DescriptorAllocatorGrowable

lemma get_pool_fullPools (st : DescriptorAllocatorGrowable) :
    st.get_pool.2.fullPools = st.fullPools := by
  unfold get_pool
  cases h : st.readyPools.getLast? <;> simp [create_pool]

lemma allocate_first_ok (tryAlloc : DPool → AllocReply)
    (st : DescriptorAllocatorGrowable) (p' : DPool) (s : Nat)
    (h : tryAlloc (firstPool st) = .ok p' s) :
    allocate tryAlloc st =
      ⟨{ afterFirst st with readyPools := (afterFirst st).readyPools ++ [p'] },
        .ok s, [firstPool st]⟩ := by
  unfold allocate
  rw [h]

lemma allocate_first_other (tryAlloc : DPool → AllocReply)
    (st : DescriptorAllocatorGrowable) (c : Int) (w : Option Nat)
    (h : tryAlloc (firstPool st) = .errOther c w) :
    allocate tryAlloc st =
      ⟨{ afterFirst st with
          readyPools := (afterFirst st).readyPools ++ [firstPool st] },
        .okUnchecked c w, [firstPool st]⟩ := by
  unfold allocate
  rw [h]

lemma allocate_retry (tryAlloc : DPool → AllocReply)
    (st : DescriptorAllocatorGrowable)
    (h : tryAlloc (firstPool st) = .errFragmentedPool ∨
      tryAlloc (firstPool st) = .errOutOfPoolMemory) :
    allocate tryAlloc st =
      match tryAlloc (secondPool st) with
      | .ok p' s =>
        ⟨{ afterSecond st with
            readyPools := (afterSecond st).readyPools ++ [p'] },
          .ok s, [firstPool st, secondPool st]⟩
      | r2 => ⟨afterSecond st, .fatal r2.code, [firstPool st, secondPool st]⟩ := by
  unfold allocate
  rcases h with h | h <;> rw [h]

end DescriptorAllocatorGrowable

/-! ### C5: allocate retry discipline -/

open DescriptorAllocatorGrowable in
/-- C5: `allocate` first attempts on the pool delivered by `get_pool` — the
back of the ready list, or a freshly created pool (growth policy) when none
is ready. On first-attempt success the satisfying pool is pushed back onto
the ready list and there is exactly one attempt. On
`VK_ERROR_FRAGMENTED_POOL` / `VK_ERROR_OUT_OF_POOL_MEMORY` the pool is
moved to the full list, another pool is obtained and the allocation retried
exactly once: a successful retry pushes that pool onto the ready list,
while any non-success retry result is fatal (`VK_CHECK` abort). Never more
than two attempts are made. -/
theorem c5_allocate (tryAlloc : DPool → AllocReply)
    (st : DescriptorAllocatorGrowable) :
    ((allocate tryAlloc st).attempts.head? = some (firstPool st)) ∧
    (st.readyPools = [] →
      firstPool st = ⟨st.nextPoolId, st.setsPerPool, 0⟩ ∧
      (afterFirst st).createdCaps = st.createdCaps ++ [st.setsPerPool]) ∧
    (∀ p, st.readyPools.getLast? = some p →
      firstPool st = p ∧ (afterFirst st).readyPools = st.readyPools.dropLast) ∧
    (∀ p' s, tryAlloc (firstPool st) = .ok p' s →
      allocate tryAlloc st =
        ⟨{ afterFirst st with
            readyPools := (afterFirst st).readyPools ++ [p'] },
          .ok s, [firstPool st]⟩) ∧
    ((tryAlloc (firstPool st) = .errFragmentedPool ∨
        tryAlloc (firstPool st) = .errOutOfPoolMemory) →
      ((allocate tryAlloc st).attempts = [firstPool st, secondPool st] ∧
        (allocate tryAlloc st).state.fullPools =
          (afterFirst st).fullPools ++ [firstPool st] ∧
        (∀ p' s, tryAlloc (secondPool st) = .ok p' s →
          allocate tryAlloc st =
            ⟨{ afterSecond st with
                readyPools := (afterSecond st).readyPools ++ [p'] },
              .ok s, [firstPool st, secondPool st]⟩) ∧
        ((∀ p' s, tryAlloc (secondPool st) ≠ .ok p' s) →
          (allocate tryAlloc st).outcome =
            .fatal (tryAlloc (secondPool st)).code))) ∧
    ((allocate tryAlloc st).attempts.length ≤ 2) := by
  have hfull2 : (afterSecond st).fullPools =
      (afterFirst st).fullPools ++ [firstPool st] := by
    simpa [afterSecond, retryState] using
      get_pool_fullPools (retryState st)
  refine ⟨?_, ?_, ?_, ?_, ?_, ?_⟩
  · cases h : tryAlloc (firstPool st) with
    | ok p' s => rw [allocate_first_ok tryAlloc st p' s h]; rfl
    | errOther c w => rw [allocate_first_other tryAlloc st c w h]; rfl
    | errFragmentedPool =>
      rw [allocate_retry tryAlloc st (Or.inl h)]
      cases tryAlloc (secondPool st) <;> rfl
    | errOutOfPoolMemory =>
      rw [allocate_retry tryAlloc st (Or.inr h)]
      cases tryAlloc (secondPool st) <;> rfl
  · intro hempty
    constructor
    · simp [firstPool, get_pool, hempty, create_pool]
    · simp [afterFirst, get_pool, hempty, create_pool]
  · intro p hp
    have hne : st.readyPools ≠ [] := by
      intro hcon
      rw [hcon] at hp
      simp at hp
    constructor
    · simp [firstPool, get_pool, hp]
    · simp [afterFirst, get_pool, hp]
  · intro p' s h
    exact allocate_first_ok tryAlloc st p' s h
  · intro h
    rw [allocate_retry tryAlloc st h]
    refine ⟨?_, ?_, ?_, ?_⟩
    · cases tryAlloc (secondPool st) <;> rfl
    · cases tryAlloc (secondPool st) <;> simp [hfull2]
    · intro p' s h2
      rw [h2]
    · intro hne
      cases h2 : tryAlloc (secondPool st) with
      | ok p' s => exact absurd h2 (hne p' s)
      | errFragmentedPool => rfl
      | errOutOfPoolMemory => rfl
      | errOther c w => rfl
  · cases h : tryAlloc (firstPool st) with
    | ok p' s => rw [allocate_first_ok tryAlloc st p' s h]; simp
    | errOther c w => rw [allocate_first_other tryAlloc st c w h]; simp
    | errFragmentedPool =>
      rw [allocate_retry tryAlloc st (Or.inl h)]
      cases tryAlloc (secondPool st) <;> simp
    | errOutOfPoolMemory =>
      rw [allocate_retry tryAlloc st (Or.inr h)]
      cases tryAlloc (secondPool st) <;> simp

open DescriptorAllocatorGrowable in
/-- Witness for `c5_allocate`: with a driver that always reports pool
exhaustion, one `allocate` on a freshly readied allocator aborts with the
second attempt's error code. -/
theorem c5_allocate_witness :
    (allocate (fun _ => .errOutOfPoolMemory) (init 1 [])).outcome =
      .fatal VK_ERROR_OUT_OF_POOL_MEMORY := by
  have h :=
    ((c5_allocate (fun _ => .errOutOfPoolMemory) (init 1 [])).2.2.2.2.1
      (Or.inr rfl)).2.2.2 (fun p' s => by simp)
  simpa [AllocReply.code] using h

/-! ### C10: non-retryable first-attempt failures fall through unchecked -/

open DescriptorAllocatorGrowable in
/-- C10: when the first allocation attempt fails with any result other than
`VK_ERROR_FRAGMENTED_POOL` or `VK_ERROR_OUT_OF_POOL_MEMORY`, `allocate`
neither retries nor aborts: it pushes the pool it used back onto the ready
list, leaves the full list untouched, and returns whatever the driver left
in the output variable, unchecked. Exactly the two retryable codes lead to
a second attempt. -/
theorem c10_allocate_unchecked (tryAlloc : DPool → AllocReply)
    (st : DescriptorAllocatorGrowable) (c : Int) (w : Option Nat)
    (h : tryAlloc (firstPool st) = .errOther c w) :
    allocate tryAlloc st =
      ⟨{ afterFirst st with
          readyPools := (afterFirst st).readyPools ++ [firstPool st] },
        .okUnchecked c w, [firstPool st]⟩ ∧
    (allocate tryAlloc st).state.fullPools = st.fullPools ∧
    (∀ f : DPool → AllocReply,
      ((allocate f st).attempts.length = 2 ↔
        (f (firstPool st) = .errFragmentedPool ∨
          f (firstPool st) = .errOutOfPoolMemory))) := by
  have h1 := allocate_first_other tryAlloc st c w h
  refine ⟨h1, ?_, ?_⟩
  · rw [h1]
    simpa [afterFirst] using get_pool_fullPools st
  · intro f
    cases hf : f (firstPool st) with
    | ok p' s =>
      rw [allocate_first_ok f st p' s hf]
      simp
    | errOther c' w' =>
      rw [allocate_first_other f st c' w' hf]
      simp
    | errFragmentedPool =>
      rw [allocate_retry f st (Or.inl hf)]
      cases f (secondPool st) <;> simp
    | errOutOfPoolMemory =>
      rw [allocate_retry f st (Or.inr hf)]
      cases f (secondPool st) <;> simp

open DescriptorAllocatorGrowable in
/-- Witness for `c10_allocate_unchecked`: a driver failing with
`VK_ERROR_OUT_OF_HOST_MEMORY` (-1) makes `allocate` return the unchecked
garbage handle without retrying or aborting. -/
theorem c10_allocate_unchecked_witness :
    (allocate (fun _ => .errOther (-1) none) (init 1 [])).outcome =
      .okUnchecked (-1) none := by
  have h :=
    (c10_allocate_unchecked (fun _ => .errOther (-1) none) (init 1 [])
      (-1) none rfl).1
  rw [h]

/-! ### C6: pool growth policy -/

namespace DescriptorAllocatorGrowable

lemma le_growTrunc (n : Nat) : n ≤ growTrunc n := by
  unfold growTrunc; omega

lemma get_pool_of_getLast (st : DescriptorAllocatorGrowable) (p : DPool)
    (h : st.readyPools.getLast? = some p) :
    st.get_pool = (p, { st with readyPools := st.readyPools.dropLast }) := by
  unfold get_pool
  rw [h]

lemma get_pool_of_empty (st : DescriptorAllocatorGrowable)
    (h : st.readyPools = []) :
    st.get_pool = (⟨st.nextPoolId, st.setsPerPool, 0⟩,
      { st with
          nextPoolId := st.nextPoolId + 1,
          createdCaps := st.createdCaps ++ [st.setsPerPool],
          setsPerPool :=
            if growTrunc st.setsPerPool > poolCeiling then poolCeiling
            else growTrunc st.setsPerPool }) := by
  unfold get_pool
  rw [h]
  simp only [create_pool, h, List.getLast?_nil]

/-- Invariant of the growth counter and the ghost creation record: the
created capacities are non-decreasing, all within the ceiling, the last one
is at most the current counter, and the counter is within the ceiling. -/
def GrowthInv (st : DescriptorAllocatorGrowable) : Prop :=
  List.Chain' (· ≤ ·) st.createdCaps ∧
    (∀ c ∈ st.createdCaps, c ≤ poolCeiling) ∧
    (∀ c ∈ st.createdCaps.getLast?, c ≤ st.setsPerPool) ∧
    st.setsPerPool ≤ poolCeiling

lemma get_pool_growthInv (st : DescriptorAllocatorGrowable)
    (h : GrowthInv st) : GrowthInv st.get_pool.2 := by
  obtain ⟨h1, h2, h3, h4⟩ := h
  cases hr : st.readyPools.getLast? with
  | some p =>
    rw [get_pool_of_getLast st p hr]
    exact ⟨h1, h2, h3, h4⟩
  | none =>
    rw [get_pool_of_empty st (List.getLast?_eq_none_iff.mp hr)]
    refine ⟨?_, ?_, ?_, ?_⟩
    · rw [List.chain'_append]
      refine ⟨h1, List.chain'_singleton _, ?_⟩
      intro x hx y hy
      simp only [List.head?_cons, Option.mem_def, Option.some.injEq] at hy
      subst hy
      exact h3 x hx
    · intro c hc
      rcases List.mem_append.mp hc with hc | hc
      · exact h2 c hc
      · simp only [List.mem_singleton] at hc
        subst hc
        exact h4
    · intro c hc
      simp only [List.getLast?_concat, Option.mem_def, Option.some.injEq] at hc
      subst hc
      dsimp only
      split
      · exact h4
      · exact le_growTrunc _
    · dsimp only
      split
      · exact le_refl _
      · omega

lemma allocate_growthInv (f : DPool → AllocReply)
    (st : DescriptorAllocatorGrowable) (h : GrowthInv st) :
    GrowthInv (allocate f st).state := by
  have hFirst : GrowthInv (afterFirst st) := get_pool_growthInv st h
  have hRetry : GrowthInv (retryState st) := hFirst
  have hSecond : GrowthInv (afterSecond st) := get_pool_growthInv _ hRetry
  unfold allocate
  cases f (firstPool st) with
  | ok p' s => exact hFirst
  | errOther c w => exact hFirst
  | errFragmentedPool => cases f (secondPool st) <;> exact hSecond
  | errOutOfPoolMemory => cases f (secondPool st) <;> exact hSecond

end DescriptorAllocatorGrowable

open DescriptorAllocatorGrowable in
/-- A sequence of `allocate` calls, each with its own driver behavior,
starting in state `st`; returns the final allocator state. -/
def runOps (oracles : List (DPool → AllocReply))
    (st : DescriptorAllocatorGrowable) : DescriptorAllocatorGrowable :=
  oracles.foldl (fun s f => (allocate f s).state) st

open DescriptorAllocatorGrowable in
lemma runOps_growthInv (oracles : List (DPool → AllocReply))
    (st : DescriptorAllocatorGrowable) (h : GrowthInv st) :
    GrowthInv (runOps oracles st) := by
  induction oracles generalizing st with
  | nil => exact h
  | cons f fs ih => exact ih _ (allocate_growthInv f st h)

open DescriptorAllocatorGrowable in
/-- C6 counterexample: after `init(10000)`, the first allocation that finds
the initial pool exhausted creates a second pool with set-count target
15000 — far above the fixed ceiling 4092, because `init` seeds the growth
counter without clamping it. (The claim's "no pool is ever created with a
set-count target exceeding the fixed ceiling" is false.) -/
theorem c6_counterexample :
    (allocate (fun _ => .errOutOfPoolMemory)
        (init 10000 [])).state.createdCaps = [10000, 15000] ∧
      poolCeiling < 15000 := by
  constructor
  · rfl
  · decide

open DescriptorAllocatorGrowable in
/-- C6 (amended): each newly created pool's set-count target equals the
current growth counter; the counter advances by truncated 1.5×
multiplication clamped to the ceiling 4092 (`init` seeds it unclamped).
Provided the seeded baseline `⌊1.5 × initialSets⌋` is within the ceiling,
the targets of all pools ever created across any sequence of `allocate`
calls are monotonically non-decreasing and never exceed the ceiling. -/
theorem c6_growth (s : Nat) (rs : List PoolSizeRatio)
    (oracles : List (DPool → AllocReply))
    (h : growTrunc s ≤ poolCeiling) :
    List.Chain' (· ≤ ·) (runOps oracles (init s rs)).createdCaps ∧
      ∀ c ∈ (runOps oracles (init s rs)).createdCaps, c ≤ poolCeiling := by
  have hInit : GrowthInv (init s rs) := by
    refine ⟨?_, ?_, ?_, ?_⟩
    · exact List.chain'_singleton _
    · intro c hc
      simp only [init, create_pool, List.nil_append, List.mem_singleton] at hc
      subst hc
      exact le_trans (le_growTrunc _) h
    · intro c hc
      simp only [init, create_pool, List.nil_append, List.getLast?_singleton,
        Option.mem_def, Option.some.injEq] at hc
      subst hc
      exact le_growTrunc _
    · exact h
  have := runOps_growthInv oracles _ hInit
  exact ⟨this.1, this.2.1⟩

open DescriptorAllocatorGrowable in
/-- Witness for `c6_growth` at a small seed and the empty call sequence. -/
theorem c6_growth_witness :
    List.Chain' (· ≤ ·) (runOps [] (init 4 [])).createdCaps ∧
      ∀ c ∈ (runOps [] (init 4 [])).createdCaps, c ≤ poolCeiling :=
  c6_growth 4 [] [] (by decide)

/-! ### C7: reset_pools and the fresh-allocator equivalence -/

namespace DescriptorAllocatorGrowable

/-- Modelled driver behavior used for the reset-equivalence claim:
`vkAllocateDescriptorSets` succeeds while the pool still has sets left
(incrementing the driver's use count for that pool) and reports
`VK_ERROR_OUT_OF_POOL_MEMORY` once its `maxSets` are exhausted. -/
def countTry (p : DPool) : AllocReply :=
  if p.used < p.capacity then .ok ⟨p.id, p.capacity, p.used + 1⟩ p.used
  else .errOutOfPoolMemory

/-- Run `n` consecutive `allocate` calls against the counting driver,
collecting the outcomes in order. -/
def runAllocs : Nat → DescriptorAllocatorGrowable →
    DescriptorAllocatorGrowable × List AllocOutcome
  | 0, st => (st, [])
  | n + 1, st =>
    let t := allocate countTry st
    let r := runAllocs n t.state
    (r.1, t.outcome :: r.2)

/-- Invariant under which every counting allocation succeeds: every ready
pool is within capacity and can hold at least one set, every ready pool
except possibly the most recently used one (the back) is empty, and the
growth counter is positive. -/
def ReadyInv (st : DescriptorAllocatorGrowable) : Prop :=
  (∀ p ∈ st.readyPools, p.used ≤ p.capacity ∧ 1 ≤ p.capacity) ∧
    (∀ p ∈ st.readyPools.dropLast, p.used = 0) ∧
    1 ≤ st.setsPerPool

lemma countTry_ok (p : DPool) (h : p.used < p.capacity) :
    countTry p = .ok ⟨p.id, p.capacity, p.used + 1⟩ p.used := by
  unfold countTry
  rw [if_pos h]

lemma countTry_full (p : DPool) (h : ¬ p.used < p.capacity) :
    countTry p = .errOutOfPoolMemory := by
  unfold countTry
  rw [if_neg h]

lemma one_le_clamp (n : Nat) (h : 1 ≤ n) :
    1 ≤ if growTrunc n > poolCeiling then poolCeiling else growTrunc n := by
  have := le_growTrunc n
  unfold poolCeiling
  split <;> omega

/-- Allocating from an empty ready list under a positive growth counter:
a pool is created and the allocation succeeds. -/
lemma allocate_count_empty (st : DescriptorAllocatorGrowable)
    (hre : st.readyPools = []) (hs : 1 ≤ st.setsPerPool) :
    (allocate countTry st).outcome.succeeded = true ∧
      ReadyInv (allocate countTry st).state := by
  have hfp : firstPool st = ⟨st.nextPoolId, st.setsPerPool, 0⟩ := by
    unfold firstPool
    rw [get_pool_of_empty st hre]
  have hct : countTry (firstPool st) =
      .ok ⟨st.nextPoolId, st.setsPerPool, 1⟩ 0 := by
    rw [hfp]
    exact countTry_ok _ hs
  have haf : afterFirst st =
      { st with
          nextPoolId := st.nextPoolId + 1,
          createdCaps := st.createdCaps ++ [st.setsPerPool],
          setsPerPool :=
            if growTrunc st.setsPerPool > poolCeiling then poolCeiling
            else growTrunc st.setsPerPool } := by
    unfold afterFirst
    rw [get_pool_of_empty st hre]
  rw [allocate_first_ok countTry st _ _ hct]
  refine ⟨rfl, ?_, ?_, ?_⟩
  · intro p hp
    rw [haf] at hp
    simp only [hre, List.nil_append, List.mem_singleton] at hp
    subst hp
    exact ⟨hs, hs⟩
  · intro p hp
    rw [haf] at hp
    simp only [hre, List.nil_append, List.dropLast_single] at hp
    exact absurd hp (List.not_mem_nil p)
  · rw [haf]
    exact one_le_clamp _ hs

/-- Allocating when the back pool `p` of the ready list still has room. -/
lemma allocate_count_back (st : DescriptorAllocatorGrowable)
    (h : ReadyInv st) (p : DPool) (hr : st.readyPools.getLast? = some p)
    (hlt : p.used < p.capacity) :
    (allocate countTry st).outcome.succeeded = true ∧
      ReadyInv (allocate countTry st).state := by
  obtain ⟨hb, hz, hs⟩ := h
  have hfp : firstPool st = p := by
    unfold firstPool
    rw [get_pool_of_getLast st p hr]
  have haf : afterFirst st = { st with readyPools := st.readyPools.dropLast } := by
    unfold afterFirst
    rw [get_pool_of_getLast st p hr]
  have hct : countTry (firstPool st) =
      .ok ⟨p.id, p.capacity, p.used + 1⟩ p.used := by
    rw [hfp]
    exact countTry_ok p hlt
  rw [allocate_first_ok countTry st _ _ hct]
  refine ⟨rfl, ?_, ?_, ?_⟩
  · intro q hq
    rw [haf] at hq
    simp only [List.mem_append, List.mem_singleton] at hq
    rcases hq with hq | hq
    · exact hb q ((List.dropLast_sublist st.readyPools).subset hq)
    · subst hq
      exact ⟨hlt, (hb p (List.mem_of_mem_getLast? hr)).2⟩
  · intro q hq
    rw [haf] at hq
    simp only [List.dropLast_concat] at hq
    exact hz q hq
  · rw [haf]
    exact hs

/-- Every counting allocation out of a `ReadyInv` state succeeds and
preserves the invariant. -/
lemma allocate_count_step (st : DescriptorAllocatorGrowable)
    (h : ReadyInv st) :
    (allocate countTry st).outcome.succeeded = true ∧
      ReadyInv (allocate countTry st).state := by
  obtain ⟨hb, hz, hs⟩ := h
  cases hr : st.readyPools.getLast? with
  | none => exact allocate_count_empty st (List.getLast?_eq_none_iff.mp hr) hs
  | some p =>
    by_cases hlt : p.used < p.capacity
    · exact allocate_count_back st ⟨hb, hz, hs⟩ p hr hlt
    · -- the back pool is exhausted: it moves to the full list and the
      -- retry succeeds, either on the next ready pool (empty by the
      -- invariant) or on a freshly created pool
      have hfp : firstPool st = p := by
        unfold firstPool
        rw [get_pool_of_getLast st p hr]
      have haf : afterFirst st =
          { st with readyPools := st.readyPools.dropLast } := by
        unfold afterFirst
        rw [get_pool_of_getLast st p hr]
      have hct : countTry (firstPool st) = .errOutOfPoolMemory := by
        rw [hfp]
        exact countTry_full p hlt
      have hretry : (retryState st).readyPools = st.readyPools.dropLast := by
        unfold retryState
        rw [haf]
      have hrespp : (retryState st).setsPerPool = st.setsPerPool := by
        unfold retryState
        rw [haf]
      rw [allocate_retry countTry st (Or.inr hct)]
      cases hr2 : (retryState st).readyPools.getLast? with
      | none =>
        have hre2 : (retryState st).readyPools = [] :=
          List.getLast?_eq_none_iff.mp hr2
        have hsp : firstPool (retryState st) =
            ⟨(retryState st).nextPoolId, (retryState st).setsPerPool, 0⟩ := by
          unfold firstPool
          rw [get_pool_of_empty _ hre2]
        have hct2 : countTry (secondPool st) =
            .ok ⟨(retryState st).nextPoolId, (retryState st).setsPerPool, 1⟩ 0 := by
          have : secondPool st = firstPool (retryState st) := rfl
          rw [this, hsp]
          exact countTry_ok _ (by rw [hrespp]; exact hs)
        have has : afterSecond st =
            { retryState st with
                nextPoolId := (retryState st).nextPoolId + 1,
                createdCaps :=
                  (retryState st).createdCaps ++ [(retryState st).setsPerPool],
                setsPerPool :=
                  if growTrunc (retryState st).setsPerPool > poolCeiling then
                    poolCeiling
                  else growTrunc (retryState st).setsPerPool } := by
          unfold afterSecond
          rw [get_pool_of_empty _ hre2]
        rw [hct2]
        refine ⟨rfl, ?_, ?_, ?_⟩
        · intro q hq
          rw [has] at hq
          simp only [hre2, List.nil_append, List.mem_singleton] at hq
          subst hq
          refine ⟨?_, ?_⟩ <;> · rw [hrespp]; exact hs
        · intro q hq
          rw [has] at hq
          simp only [hre2, List.nil_append, List.dropLast_single] at hq
          exact absurd hq (List.not_mem_nil q)
        · rw [has]
          exact one_le_clamp _ (by rw [hrespp]; exact hs)
      | some q =>
        have hqmem1 : q ∈ st.readyPools.dropLast := by
          rw [← hretry]
          exact List.mem_of_mem_getLast? hr2
        have hq0 : q.used = 0 := hz q hqmem1
        have hqcap : 1 ≤ q.capacity :=
          (hb q ((List.dropLast_sublist st.readyPools).subset hqmem1)).2
        have hsp : firstPool (retryState st) = q := by
          unfold firstPool
          rw [get_pool_of_getLast _ q hr2]
        have hct2 : countTry (secondPool st) =
            .ok ⟨q.id, q.capacity, q.used + 1⟩ q.used := by
          have : secondPool st = firstPool (retryState st) := rfl
          rw [this, hsp]
          exact countTry_ok q (by omega)
        have hgp2 := get_pool_of_getLast (retryState st) q hr2
        have hasr : (afterSecond st).readyPools =
            st.readyPools.dropLast.dropLast := by
          unfold afterSecond
          rw [hgp2, ← hretry]
        have hass : (afterSecond st).setsPerPool = st.setsPerPool := by
          unfold afterSecond
          rw [hgp2]
          exact hrespp
        rw [hct2]
        refine ⟨rfl, ?_, ?_, ?_⟩
        · intro r hrm
          have hrm' : r ∈ (afterSecond st).readyPools ++
              [(⟨q.id, q.capacity, q.used + 1⟩ : DPool)] := hrm
          rw [hasr] at hrm'
          rcases List.mem_append.mp hrm' with hrm2 | hrm2
          · exact hb r ((List.dropLast_sublist _).subset
              ((List.dropLast_sublist _).subset hrm2))
          · rw [List.mem_singleton] at hrm2
            subst hrm2
            constructor
            · show q.used + 1 ≤ q.capacity
              omega
            · exact hqcap
        · intro r hrm
          have hrm' : r ∈ ((afterSecond st).readyPools ++
              [(⟨q.id, q.capacity, q.used + 1⟩ : DPool)]).dropLast := hrm
          rw [List.dropLast_concat, hasr] at hrm'
          exact hz r ((List.dropLast_sublist _).subset hrm')
        · show 1 ≤ (afterSecond st).setsPerPool
          rw [hass]
          exact hs

lemma runAllocs_ok (n : Nat) (st : DescriptorAllocatorGrowable)
    (h : ReadyInv st) :
    (runAllocs n st).2.map AllocOutcome.succeeded = List.replicate n true ∧
      ∀ o ∈ (runAllocs n st).2, o.isFatal = false := by
  induction n generalizing st with
  | zero => exact ⟨rfl, fun o ho => absurd ho (List.not_mem_nil o)⟩
  | succ n ih =>
    obtain ⟨hok, hinv⟩ := allocate_count_step st h
    obtain ⟨ih1, ih2⟩ := ih _ hinv
    constructor
    · simp only [runAllocs, List.map_cons, hok, ih1, List.replicate_succ]
    · intro o ho
      simp only [runAllocs, List.mem_cons] at ho
      rcases ho with ho | ho
      · subst ho
        cases hco : (allocate countTry st).outcome with
        | ok s => rfl
        | okUnchecked c w => rfl
        | fatal c =>
          rw [hco] at hok
          exact absurd hok (by simp [AllocOutcome.succeeded])
      · exact ih2 o ho

lemma reset_pools_readyInv (st : DescriptorAllocatorGrowable)
    (hcap : ∀ p ∈ st.readyPools ++ st.fullPools, 1 ≤ p.capacity)
    (hspp : 1 ≤ st.setsPerPool) : ReadyInv st.reset_pools := by
  refine ⟨?_, ?_, hspp⟩
  · intro p hp
    simp only [reset_pools, List.mem_append, List.mem_map] at hp
    rcases hp with ⟨q, hq, hqe⟩ | ⟨q, hq, hqe⟩ <;>
    · subst hqe
      refine ⟨Nat.zero_le _, ?_⟩
      exact hcap q (List.mem_append.mpr (by first | exact Or.inl hq | exact Or.inr hq))
  · intro p hp
    have hp' := (List.dropLast_sublist _).subset hp
    simp only [reset_pools, List.mem_append, List.mem_map] at hp'
    rcases hp' with ⟨q, _, hqe⟩ | ⟨q, _, hqe⟩ <;> subst hqe <;> rfl

lemma init_readyInv (s : Nat) (rs : List PoolSizeRatio) (hs : 1 ≤ s) :
    ReadyInv (init s rs) := by
  refine ⟨?_, ?_, ?_⟩
  · intro p hp
    simp only [init, create_pool, List.nil_append, List.mem_singleton] at hp
    subst hp
    exact ⟨Nat.zero_le _, hs⟩
  · intro p hp
    simp only [init, create_pool, List.nil_append, List.dropLast_single] at hp
    exact absurd hp (List.not_mem_nil p)
  · exact le_trans hs (le_growTrunc s)

end DescriptorAllocatorGrowable

open DescriptorAllocatorGrowable in
/-- C7: `reset_pools` empties the full set, merges it (cleared) into the
ready set after clearing every ready pool in place; and, for the counting
driver, performing `n ≤` (last-created pool capacity) allocations after
`reset_pools` produces exactly the same success/failure sequence — all
successes, no fatal error — as performing the same `n` allocations on a
freshly-initialized allocator. The hypotheses on `st` hold for every state
reachable from `init` with a positive initial set count. -/
theorem c7_reset_pools (st : DescriptorAllocatorGrowable) (s n : Nat)
    (rs : List PoolSizeRatio)
    (hcap : ∀ p ∈ st.readyPools ++ st.fullPools, 1 ≤ p.capacity)
    (hspp : 1 ≤ st.setsPerPool) (hs : 1 ≤ s)
    (_hn : n ≤ st.createdCaps.getLastD 0) :
    st.reset_pools.fullPools = [] ∧
      st.reset_pools.readyPools =
        st.readyPools.map clearPool ++ st.fullPools.map clearPool ∧
      (∀ p ∈ st.reset_pools.readyPools, p.used = 0) ∧
      (runAllocs n st.reset_pools).2.map AllocOutcome.succeeded =
        (runAllocs n (init s rs)).2.map AllocOutcome.succeeded ∧
      (∀ o ∈ (runAllocs n st.reset_pools).2, o.isFatal = false) ∧
      (∀ o ∈ (runAllocs n (init s rs)).2, o.isFatal = false) := by
  obtain ⟨hreset1, hreset2⟩ :=
    runAllocs_ok n _ (reset_pools_readyInv st hcap hspp)
  obtain ⟨hfresh1, hfresh2⟩ := runAllocs_ok n _ (init_readyInv s rs hs)
  refine ⟨rfl, rfl, ?_, ?_, hreset2, hfresh2⟩
  · intro p hp
    simp only [reset_pools, List.mem_append, List.mem_map] at hp
    rcases hp with ⟨q, _, hqe⟩ | ⟨q, _, hqe⟩ <;> subst hqe <;> rfl
  · rw [hreset1, hfresh1]

open DescriptorAllocatorGrowable in
/-- Witness for `c7_reset_pools`: one allocation after resetting a freshly
readied two-set allocator succeeds exactly as on a fresh allocator. -/
theorem c7_reset_pools_witness :
    (runAllocs 1 (init 2 []).reset_pools).2.map AllocOutcome.succeeded =
      (runAllocs 1 (init 2 [] : DescriptorAllocatorGrowable)).2.map
        AllocOutcome.succeeded :=
  (c7_reset_pools (init 2 []) 2 1 []
    (by decide) (by decide) (by decide) (by decide)).2.2.2.1

/-! ## Frame orchestration (vk_engine.cpp:313-341) -/

/-- Remaining VkResult codes the frame path branches on (vulkan_core.h). -/
def VK_TIMEOUT : Int := 2

/-- `VK_ERROR_OUT_OF_DATE_KHR` (vulkan_core.h). -/
def VK_ERROR_OUT_OF_DATE_KHR : Int := -1000001004

/-- `VK_SUBOPTIMAL_KHR` (vulkan_core.h). -/
def VK_SUBOPTIMAL_KHR : Int := 1000001003

/-- The observable actions of the WaitPrevious step of `VulkanEngine::draw`. -/
inductive FrameEvent where
  | waitFence (timeoutNs : Nat)
  | resetFence
  | flushDeletionQueue
  | resetDescriptorPools
deriving DecidableEq

/-- The WaitPrevious step of `draw` (vk_engine.cpp:321-330), parameterized
by the driver results of `vkWaitForFences` and `vkResetFences`. Both calls
are wrapped in `VK_CHECK` (vk_types.h:24-31), which `abort`s on ANY nonzero
result — including `VK_TIMEOUT` when the one-second (1000000000 ns) wait
expires. Returns the actions performed in program order, and `some code` if
a `VK_CHECK` aborted the process after them. -/
def waitPrevious (waitResult resetResult : Int) : List FrameEvent × Option Int :=
  if waitResult ≠ 0 then ([.waitFence 1000000000], some waitResult)
  else if resetResult ≠ 0 then
    ([.waitFence 1000000000, .resetFence], some resetResult)
  else
    ([.waitFence 1000000000, .resetFence, .flushDeletionQueue,
      .resetDescriptorPools], none)

/-! ### C8: WaitPrevious ordering and timeout fatality -/

/-- C8: on the successful path the WaitPrevious step performs exactly, and
in this order: the fence wait with a 1-second (1000000000 ns) timeout, the
fence reset, the frame slot's deletion-queue flush, and the frame slot's
descriptor-pool reset — so the descriptor-pool reset never precedes the
deletion-queue flush; while a nonzero wait result (in particular
`VK_TIMEOUT`) is fatal immediately, performing none of the later actions
and never retrying. -/
theorem c8_wait_previous (waitResult resetResult : Int) :
    (waitResult = 0 → resetResult = 0 →
      waitPrevious waitResult resetResult =
        ([.waitFence 1000000000, .resetFence, .flushDeletionQueue,
          .resetDescriptorPools], none)) ∧
    (waitResult ≠ 0 →
      waitPrevious waitResult resetResult =
        ([.waitFence 1000000000], some waitResult)) ∧
    (∀ t : List FrameEvent, ∀ r : Option Int,
      waitPrevious waitResult resetResult = (t, r) →
      FrameEvent.resetDescriptorPools ∈ t →
      t.indexOf FrameEvent.flushDeletionQueue <
        t.indexOf FrameEvent.resetDescriptorPools) := by
  refine ⟨?_, ?_, ?_⟩
  · intro hw hr
    simp [waitPrevious, hw, hr]
  · intro hw
    simp [waitPrevious, hw]
  · intro t r ht hmem
    unfold waitPrevious at ht
    split_ifs at ht <;>
      (rw [Prod.mk.injEq] at ht; obtain ⟨ht1, _⟩ := ht; subst ht1) <;>
      first
      | (exact absurd hmem (by decide))
      | decide

/-- Witness for `c8_wait_previous`: the success path performs the four
actions in order, and a timed-out wait (`VK_TIMEOUT` = 2) is fatal. -/
theorem c8_wait_previous_witness :
    waitPrevious 0 0 =
      ([.waitFence 1000000000, .resetFence, .flushDeletionQueue,
        .resetDescriptorPools], none) ∧
      waitPrevious VK_TIMEOUT 0 = ([.waitFence 1000000000], some VK_TIMEOUT) :=
  ⟨(c8_wait_previous 0 0).1 rfl rfl,
    (c8_wait_previous VK_TIMEOUT 0).2.1 (by decide)⟩

/-! ### C9: draw-list clearing across frames -/

/-- The per-frame draw context (vk_types.h:137): the opaque and transparent
render-object lists. -/
structure DrawContext where
  OpaqueDrawData : List RenderObject
  TransparentDrawData : List RenderObject
deriving DecidableEq

/-- `MeshNode::gather_draw_data` (vk_engine.cpp:1521-1544), abstracted over
the flat sequence of render objects traversal produces this frame: each one
is appended (`push_back`) to the transparent list if its material's alpha
mode is `Transparent`, else to the opaque list. Nothing is ever cleared
here. -/
def gather_draw_data (ctx : DrawContext) (objs : List RenderObject) :
    DrawContext :=
  objs.foldl
    (fun c o =>
      if o.material.alphaMode = AlphaMode.Transparent then
        { c with TransparentDrawData := c.TransparentDrawData ++ [o] }
      else
        { c with OpaqueDrawData := c.OpaqueDrawData ++ [o] })
    ctx

/-- The effect of one `VulkanEngine::draw` invocation on the main draw
context (vk_engine.cpp:313-341 and 646-648): `update_render_scene` gathers
(appends) this frame's scene objects into the context; then the swapchain
image is acquired. On `VK_ERROR_OUT_OF_DATE_KHR` the frame is aborted —
resize flag set, early return — WITHOUT touching the lists. Any other
non-success result except `VK_SUBOPTIMAL_KHR` aborts the process
(`VK_CHECK`). Otherwise the frame records `draw_geometry`, which ends by
clearing both lists. Returns the final context and the resize flag, or the
fatal code. -/
def drawFrame (acquireResult : Int) (gathered : List RenderObject)
    (ctx : DrawContext) : Except Int (DrawContext × Bool) :=
  let ctx1 := gather_draw_data ctx gathered
  if acquireResult = VK_ERROR_OUT_OF_DATE_KHR then Except.ok (ctx1, true)
  else if acquireResult ≠ VK_SUBOPTIMAL_KHR ∧ acquireResult ≠ 0 then
    Except.error acquireResult
  else Except.ok (⟨[], []⟩, false)

/-- C9 (refuting evidence): a frame that gathers one opaque object and then
sees `VK_ERROR_OUT_OF_DATE_KHR` at image acquisition returns with the
opaque draw list still holding that object — the lists are NOT empty at the
end of this invocation — and the next frame's gather appends a second copy,
so render objects accumulate across frames (each survivor is then drawn
twice). A successful frame, by contrast, does end with both lists cleared. -/
theorem c9_stale_draw_lists :
    drawFrame VK_ERROR_OUT_OF_DATE_KHR [cObj] ⟨[], []⟩ =
        Except.ok (⟨[cObj], []⟩, true) ∧
      ([cObj] : List RenderObject) ≠ [] ∧
      gather_draw_data ⟨[cObj], []⟩ [cObj] = ⟨[cObj, cObj], []⟩ ∧
      drawFrame 0 [cObj] ⟨[], []⟩ = Except.ok (⟨[], []⟩, false) := by
  refine ⟨?_, by simp, ?_, ?_⟩
  · simp [drawFrame, gather_draw_data, cObj, VK_ERROR_OUT_OF_DATE_KHR]
  · simp [gather_draw_data, cObj]
  · simp [drawFrame, gather_draw_data, VK_ERROR_OUT_OF_DATE_KHR,
      VK_SUBOPTIMAL_KHR]

end Radiant
